import Mathlib

/-!
Drives_Mapper (`src/lib.rs`) — shallow embedding and verification.

The Rust module walks a directory tree, extracts per-file metadata
(`scan_file`), groups the records into batches (`slice::chunks`), and
persists each batch in one SQLite transaction (`save_batch_to_db`),
after (re)initialising the snapshot table (`setup_db`).  The entry
point `scan_and_save` wires the stages together and drains a channel
of per-batch outcomes, surfacing the first error.

Modelling choices, each tied to a line of the source:

* Filesystem answers (`fs::metadata`, `Path::file_name`,
  `Path::parent`, the three fallible timestamp queries) are carried by
  the walked entry itself: `fs::metadata` failing is `meta = none`, a
  timestamp query failing is that field being `none`.  Time instants
  are abstracted as `Nat`; `chrono`'s RFC 3339 rendering is an
  external library and is abstracted as an injective rendering.
* SQLite is modelled at the rusqlite API boundary: the `files` table
  is `Option (List FileInfo)` (`none` = table absent), a transaction
  stages inserts and appends them all on `commit`, and an early `?`
  return drops the transaction, which rolls it back (rusqlite's
  default drop behaviour), leaving the table unchanged.
* Per-insert outcomes (`stmt.execute`), per-batch connection opens
  (`Connection::open(&db_path)` inside the closure) and channel sends
  are injectable oracles in a `ScanEnv`, so that failure-injection
  properties of the spec can be stated.
* `rayon`'s `for_each` over the chunks is modelled as a sequential
  loop; the claims under verification are order-insensitive (batch
  results are per-batch, the table is append-only during the loop).
* Rust panics (`unwrap()` on a failed open or send, `slice::chunks`
  called with chunk size `0`) are the `RunOutcome.panic` outcome,
  distinct from the error value (`PyErr`) returns `RunOutcome.err`.
-/

/-- An abstract point in time (`std::time::SystemTime`). -/
abbrev SystemTime : Type := Nat

/-- `system_time_to_iso8601` converts the instant to UTC and renders
it via `chrono`; the rendering is external, so it is abstracted as an
injective map from instants to strings. -/
def system_time_to_iso8601 (t : SystemTime) : String :=
  Nat.repr t

/-- The fields of `std::fs::Metadata` the program queries: the three
timestamp accessors are each fallible (`accessed()`, `created()`,
`modified()` return `io::Result<SystemTime>`, modelled as `Option`),
and the entry kind (regular file vs directory), which the program
never consults. -/
structure Metadata where
  accessed : Option SystemTime
  created : Option SystemTime
  modified : Option SystemTime
  isDir : Bool
deriving Repr, DecidableEq

/-- The path components the program queries: `Path::file_name` and
`Path::parent` are each partial (`None` for paths like `/` or paths
ending in `..`), `to_string_lossy` on the whole path always yields a
string. -/
structure PathInfo where
  fileName : Option String
  parentDir : Option String
  fullPath : String
deriving Repr, DecidableEq

/-- One entry yielded by the walker, together with the filesystem's
answer to `fs::metadata` at that path (`none` = the metadata read
fails). -/
structure Entry where
  path : PathInfo
  meta : Option Metadata
deriving Repr, DecidableEq

/-- Rust struct `FileInfo` (`src/lib.rs:14`): one record per scanned
entry; the three date fields are `Option<String>`. -/
structure FileInfo where
  file_name : String
  file_path : String
  last_access_date : Option String
  creation_date : Option String
  update_date : Option String
  full_path : String
deriving Repr, DecidableEq

/-- Rust `scan_file` (`src/lib.rs:34`): `fs::metadata(file).ok()?`,
`file.file_name()?`, `file.parent()?` each abort with `None`; the
three timestamps are mapped through `system_time_to_iso8601` only
when their query succeeded. -/
def scan_file (e : Entry) : Option FileInfo :=
  match e.meta with
  | none => none
  | some metadata =>
    match e.path.fileName with
    | none => none
    | some file_name =>
      match e.path.parentDir with
      | none => none
      | some file_path =>
        some { file_name := file_name
               file_path := file_path
               last_access_date := metadata.accessed.map system_time_to_iso8601
               creation_date := metadata.created.map system_time_to_iso8601
               update_date := metadata.modified.map system_time_to_iso8601
               full_path := e.path.fullPath }

/-- The snapshot table `files`: `none` while the table does not exist
yet, `some rows` once created (the synthetic `id` column is implied by
row position and carries no information). -/
abbrev FilesTable : Type := Option (List FileInfo)

/-- `CREATE TABLE IF NOT EXISTS files (...)` (`src/lib.rs:77`):
creates an empty table when absent, leaves an existing table alone. -/
def createTableIfAbsent (db : FilesTable) : FilesTable :=
  match db with
  | none => some []
  | some rows => some rows

/-- `DELETE FROM files` (`src/lib.rs:89`): unconditionally removes
every row of the (now existing) table. -/
def clearRows (db : FilesTable) : FilesTable :=
  db.map (fun _ => [])

/-- Rust `setup_db` (`src/lib.rs:76`): create the table if absent,
then clear all rows. -/
def setup_db (db : FilesTable) : FilesTable :=
  clearRows (createTableIfAbsent db)

/-- The loop body of `save_batch_to_db` (`src/lib.rs:60`): run
`stmt.execute` on each record in order, aborting at the first insert
error (the `?` on `execute`).  `exec` is the store's per-insert
outcome. -/
def execBatch (exec : FileInfo → Except String Unit) :
    List FileInfo → Except String Unit
  | [] => Except.ok ()
  | f :: rest =>
    match exec f with
    | Except.error e => Except.error e
    | Except.ok _ => execBatch exec rest

/-- Rust `save_batch_to_db` (`src/lib.rs:53`): all inserts run inside
one transaction.  An insert failure returns early, dropping the
transaction, which rolls it back — the table is unchanged and the
error is returned.  When every insert succeeds, `tx.commit()` appends
all staged rows. -/
def save_batch_to_db (exec : FileInfo → Except String Unit)
    (table : List FileInfo) (batch : List FileInfo) :
    List FileInfo × Except String Unit :=
  match execBatch exec batch with
  | Except.error e => (table, Except.error e)
  | Except.ok _ => (table ++ batch, Except.ok ())

/-- `slice::chunks` unrolled on explicit fuel (each step consumes at
least one element when `n ≥ 1`, so `l.length` fuel is exact); the
`fuel = 0` row is unreachable under `n ≥ 1`. -/
def chunksFuel {α : Type} (n : Nat) : Nat → List α → List (List α)
  | _, [] => []
  | 0, _ => []
  | fuel+1, l => (l.take n) :: chunksFuel n fuel (l.drop n)

/-- Rust `slice::chunks(n)` (`src/lib.rs:107`): consecutive chunks of
`n` elements, the last chunk possibly shorter.  Rust panics when
`n = 0`; `scan_and_save` models that panic before ever calling this,
so the `n = 0` behaviour of this function is never relied upon. -/
def chunksList {α : Type} (n : Nat) (l : List α) : List (List α) :=
  chunksFuel n l.length l

/-- Everything the run's closures consult that is external to the
program: the walker's raw yields (`WalkDir::new(root).into_iter()`,
each either a directory entry or a walk error), the store's
per-insert outcome, and — indexed by batch number — the outcome of
the per-batch `Connection::open` and of the channel `send`. -/
structure ScanEnv where
  walk : List (Except String Entry)
  exec : FileInfo → Except String Unit
  openConn : Nat → Except String Unit
  sendOk : Nat → Bool

/-- `.filter_map(|e| e.ok())` (`src/lib.rs:101`): walk errors are
silently dropped. -/
def okEntries (walk : List (Except String Entry)) : List Entry :=
  walk.filterMap Except.toOption

/-- How a run terminates: a normal return of `Ok(())`, a `PyErr`
return, or a Rust panic (a failed `unwrap`, or `chunks(0)`). -/
inductive RunOutcome where
  | ok : RunOutcome
  | err : String → RunOutcome
  | panic : RunOutcome
deriving Repr, DecidableEq

/-- A state of the `for_each` loop over the batches
(`src/lib.rs:108`): either it ran to completion, with the final table
and the list of results sent on the channel (in dispatch order), or
some closure panicked, with the table as committed up to that
point. -/
inductive LoopRes where
  | done : List FileInfo → List (Except String Unit) → LoopRes
  | panicked : List FileInfo → LoopRes

/-- The `for_each` closure iterated over the batches: each iteration
opens its own connection (`.unwrap()` — a failure panics), writes the
batch, and sends the batch's result on the channel (`.unwrap()` — a
failure panics). -/
def forEachBatches (env : ScanEnv) : Nat → List FileInfo →
    List (List FileInfo) → LoopRes
  | _, table, [] => LoopRes.done table []
  | idx, table, batch :: rest =>
    match env.openConn idx with
    | Except.error _ => LoopRes.panicked table
    | Except.ok _ =>
      match save_batch_to_db env.exec table batch with
      | (table2, res) =>
        if env.sendOk idx then
          match forEachBatches env (idx + 1) table2 rest with
          | LoopRes.done t rs => LoopRes.done t (res :: rs)
          | LoopRes.panicked t => LoopRes.panicked t
        else LoopRes.panicked table2

/-- The drain loop `for result in rx { result.map_err(...)?; }`
(`src/lib.rs:115`): returns the first error in channel order, `Ok`
when there is none. -/
def drain : List (Except String Unit) → Except String Unit
  | [] => Except.ok ()
  | Except.ok _ :: rest => drain rest
  | Except.error e :: _ => Except.error e

/-- Rust `scan_and_save` (`src/lib.rs:94`): open the store and run
`setup_db`; walk the tree, keep the entries that scanned
successfully, collect them; `chunks(batch_size)` — which panics when
`batch_size = 0`, after the store was already mutated and the scan
already ran; loop over the batches writing each one; drain the result
channel and return the first error, else `Ok`. -/
def scan_and_save (env : ScanEnv) (db : FilesTable) (batch_size : Nat) :
    FilesTable × RunOutcome :=
  let db1 := setup_db db
  let records := (okEntries env.walk).filterMap scan_file
  if batch_size = 0 then (db1, RunOutcome.panic)
  else
    match forEachBatches env 0 [] (chunksList batch_size records) with
    | LoopRes.panicked t => (some t, RunOutcome.panic)
    | LoopRes.done t rs =>
      match drain rs with
      | Except.ok _ => (some t, RunOutcome.ok)
      | Except.error e => (some t, RunOutcome.err e)

/-! Concrete sample data used by the closed witness theorems. -/

/-- Sample metadata of a regular file with all three timestamps
reportable. -/
def fileMetaAll : Metadata :=
  { accessed := some 4, created := some 5, modified := some 6, isDir := false }

/-- Sample metadata of a regular file whose filesystem reports a
modification time but no creation time. -/
def fileMetaNoCreate : Metadata :=
  { accessed := some 7, created := none, modified := some 8, isDir := false }

/-- Sample metadata of a directory. -/
def dirMeta : Metadata :=
  { accessed := some 1, created := some 2, modified := some 3, isDir := true }

/-- A readable regular file `/r/d/a.txt`. -/
def entryA : Entry :=
  { path := { fileName := some "a.txt", parentDir := some "/r/d",
              fullPath := "/r/d/a.txt" }
    meta := some fileMetaAll }

/-- A readable regular file `/r/d/b.txt`. -/
def entryB : Entry :=
  { path := { fileName := some "b.txt", parentDir := some "/r/d",
              fullPath := "/r/d/b.txt" }
    meta := some fileMetaAll }

/-- A file whose `fs::metadata` read fails. -/
def entryUnreadable : Entry :=
  { path := { fileName := some "c.txt", parentDir := some "/r/d",
              fullPath := "/r/d/c.txt" }
    meta := none }

/-- A file reporting a modification time but no creation time. -/
def entryNoCreate : Entry :=
  { path := { fileName := some "n.txt", parentDir := some "/r/d",
              fullPath := "/r/d/n.txt" }
    meta := some fileMetaNoCreate }

/-- The root directory `/r` itself, as yielded by the walker. -/
def entryRootDir : Entry :=
  { path := { fileName := some "r", parentDir := some "/", fullPath := "/r" }
    meta := some dirMeta }

/-- The subdirectory `/r/d`, as yielded by the walker. -/
def entrySubDir : Entry :=
  { path := { fileName := some "d", parentDir := some "/r", fullPath := "/r/d" }
    meta := some dirMeta }

/-- A walk of the tree `/r` holding two regular files inside one
readable subdirectory: the walker yields the root, the subdirectory
and the two files. -/
def demoTreeWalk : List (Except String Entry) :=
  [Except.ok entryRootDir, Except.ok entrySubDir,
   Except.ok entryA, Except.ok entryB]

/-- An environment in which every store operation succeeds. -/
def demoEnvOk : ScanEnv :=
  { walk := demoTreeWalk
    exec := fun _ => Except.ok ()
    openConn := fun _ => Except.ok ()
    sendOk := fun _ => true }

/-! Helper lemmas shared by several claim theorems. -/

theorem execBatch_ok_iff (exec : FileInfo → Except String Unit)
    (batch : List FileInfo) :
    execBatch exec batch = Except.ok () ↔
      ∀ f ∈ batch, exec f = Except.ok () := by
  induction batch with
  | nil => simp [execBatch]
  | cons f rest ih =>
    cases h : exec f with
    | ok u =>
      cases u
      simp [execBatch, h, ih]
    | error e =>
      simp only [execBatch, h]
      constructor
      · intro hok
        exact absurd hok (by simp)
      · intro hall
        have hf := hall f (List.mem_cons_self f rest)
        rw [h] at hf
        exact absurd hf (by simp)

theorem execBatch_ok_or_error (exec : FileInfo → Except String Unit)
    (batch : List FileInfo) :
    execBatch exec batch = Except.ok () ∨
      ∃ e, execBatch exec batch = Except.error e := by
  cases h : execBatch exec batch with
  | ok u => cases u; exact Or.inl rfl
  | error e => exact Or.inr ⟨e, rfl⟩

theorem execBatch_error_mem (exec : FileInfo → Except String Unit)
    (batch : List FileInfo) (e : String)
    (h : execBatch exec batch = Except.error e) :
    ∃ f ∈ batch, exec f = Except.error e := by
  induction batch with
  | nil => exact absurd h (by simp [execBatch])
  | cons f rest ih =>
    cases hx : exec f with
    | ok u =>
      cases u
      rw [execBatch, hx] at h
      obtain ⟨g, hg, hge⟩ := ih h
      exact ⟨g, List.mem_cons_of_mem f hg, hge⟩
    | error e2 =>
      rw [execBatch, hx] at h
      cases h
      exact ⟨f, List.mem_cons_self f rest, hx⟩

/-- C6: `setup_db` is idempotent — after each of two successive runs
the snapshot table exists and is empty, whatever rows it held
beforehand (table absent, empty, or populated). -/
theorem setup_db_idempotent (db : FilesTable) :
    setup_db db = some [] ∧ setup_db (setup_db db) = some [] := by
  cases db <;> simp [setup_db, clearRows, createTableIfAbsent]

/-- C2: `save_batch_to_db` is atomic per batch — when every insert
succeeds the whole batch is appended to the table and `Ok` returned;
when any insert fails, the table is unchanged (the dropped transaction
rolls back), and the error returned is the error of a failing insert
of the batch. -/
theorem save_batch_to_db_atomic (exec : FileInfo → Except String Unit)
    (table batch : List FileInfo) :
    ((∀ f ∈ batch, exec f = Except.ok ()) →
      save_batch_to_db exec table batch = (table ++ batch, Except.ok ())) ∧
    ((∃ f ∈ batch, ∃ e, exec f = Except.error e) →
      (save_batch_to_db exec table batch).1 = table ∧
      ∃ e, (save_batch_to_db exec table batch).2 = Except.error e ∧
        ∃ f ∈ batch, exec f = Except.error e) := by
  constructor
  · intro hall
    have hok : execBatch exec batch = Except.ok () :=
      (execBatch_ok_iff exec batch).mpr hall
    simp [save_batch_to_db, hok]
  · intro hfail
    have hne : execBatch exec batch ≠ Except.ok () := by
      intro hok
      rcases hfail with ⟨f, hf, e, he⟩
      have := (execBatch_ok_iff exec batch).mp hok f hf
      rw [he] at this
      exact absurd this (by simp)
    rcases execBatch_ok_or_error exec batch with hok | ⟨e, he⟩
    · exact absurd hok hne
    · exact ⟨by simp [save_batch_to_db, he], e, by simp [save_batch_to_db, he],
        execBatch_error_mem exec batch e he⟩

/-- C2 witness: a concrete batch, once with every insert succeeding,
once with a failing insert. -/
theorem save_batch_to_db_atomic_witness :
    save_batch_to_db (fun _ => Except.ok ()) []
        ((okEntries demoTreeWalk).filterMap scan_file) =
      ((okEntries demoTreeWalk).filterMap scan_file, Except.ok ()) ∧
    ((save_batch_to_db (fun fi =>
          if fi.file_name = "a.txt" then Except.error "constraint" else Except.ok ()) []
        ((okEntries demoTreeWalk).filterMap scan_file)).1 = [] ∧
      ∃ e, (save_batch_to_db (fun fi =>
          if fi.file_name = "a.txt" then Except.error "constraint" else Except.ok ()) []
        ((okEntries demoTreeWalk).filterMap scan_file)).2 = Except.error e ∧
        ∃ f ∈ (okEntries demoTreeWalk).filterMap scan_file,
          (if f.file_name = "a.txt" then Except.error "constraint" else Except.ok ())
            = Except.error e) := by
  constructor
  · exact (save_batch_to_db_atomic (fun _ => Except.ok ()) []
      ((okEntries demoTreeWalk).filterMap scan_file)).1 (fun f _ => rfl)
  · exact (save_batch_to_db_atomic (fun fi =>
      if fi.file_name = "a.txt" then Except.error "constraint" else Except.ok ()) []
      ((okEntries demoTreeWalk).filterMap scan_file)).2
      (by
        refine ⟨{ file_name := "a.txt", file_path := "/r/d",
                  last_access_date := some "4", creation_date := some "5",
                  update_date := some "6", full_path := "/r/d/a.txt" },
          by decide, "constraint", rfl⟩)

/-- C4: `scan_file` fails soft — it yields nothing, and can raise no
error (its codomain is `Option`), exactly when the metadata read
fails, the path has no file-name component, or the path has no parent
component; consequently a walk holding one readable file and one file
whose metadata read fails yields exactly one record. -/
theorem scan_file_soft_fail (good bad : Entry) (m : Metadata) (nm p : String)
    (h1 : good.meta = some m) (h2 : good.path.fileName = some nm)
    (h3 : good.path.parentDir = some p) (h4 : bad.meta = none) :
    (∀ e : Entry, scan_file e = none ↔
      (e.meta = none ∨ e.path.fileName = none ∨ e.path.parentDir = none)) ∧
    ([good, bad].filterMap scan_file).length = 1 := by
  constructor
  · intro e
    rcases e with ⟨⟨fn, pd, fp⟩, mo⟩
    cases mo <;> cases fn <;> cases pd <;> simp [scan_file]
  · simp [List.filterMap, scan_file, h1, h2, h3, h4]

/-- C4 witness: the readable file `/r/d/a.txt` next to the unreadable
`/r/d/c.txt`. -/
theorem scan_file_soft_fail_witness :
    (∀ e : Entry, scan_file e = none ↔
      (e.meta = none ∨ e.path.fileName = none ∨ e.path.parentDir = none)) ∧
    ([entryA, entryUnreadable].filterMap scan_file).length = 1 :=
  scan_file_soft_fail entryA entryUnreadable fileMetaAll "a.txt" "/r/d"
    rfl rfl rfl rfl

/-- C7: each timestamp is independently optional — a readable entry
whose filesystem reports a modification time but no creation time
still yields a record, with `creation_date` absent, `update_date`
present, and the required fields (name, directory, full path)
populated. -/
theorem scan_file_timestamp_optional (e : Entry) (m : Metadata)
    (nm p : String) (t : SystemTime)
    (hm : e.meta = some m) (hn : e.path.fileName = some nm)
    (hp : e.path.parentDir = some p)
    (hc : m.created = none) (hmod : m.modified = some t) :
    ∃ fi, scan_file e = some fi ∧
      fi.creation_date = none ∧
      fi.update_date = some (system_time_to_iso8601 t) ∧
      fi.file_name = nm ∧ fi.file_path = p ∧
      fi.full_path = e.path.fullPath := by
  refine ⟨{ file_name := nm, file_path := p,
            last_access_date := m.accessed.map system_time_to_iso8601,
            creation_date := none,
            update_date := some (system_time_to_iso8601 t),
            full_path := e.path.fullPath }, ?_, rfl, rfl, rfl, rfl, rfl⟩
  simp [scan_file, hm, hn, hp, hc, hmod]

/-- C7 witness: the file `/r/d/n.txt`, whose creation-time query
fails while the modification-time query succeeds. -/
theorem scan_file_timestamp_optional_witness :
    ∃ fi, scan_file entryNoCreate = some fi ∧
      fi.creation_date = none ∧
      fi.update_date = some (system_time_to_iso8601 8) ∧
      fi.file_name = "n.txt" ∧ fi.file_path = "/r/d" ∧
      fi.full_path = entryNoCreate.path.fullPath :=
  scan_file_timestamp_optional entryNoCreate fileMetaNoCreate "n.txt" "/r/d" 8
    rfl rfl rfl rfl rfl

theorem chunksFuel_nil {α : Type} (n fuel : Nat) :
    chunksFuel n fuel ([] : List α) = [] := by
  cases fuel <;> rfl

theorem chunksFuel_flatten {α : Type} (n : Nat) (hn : 1 ≤ n) :
    ∀ (fuel : Nat) (l : List α), l.length ≤ fuel →
      (chunksFuel n fuel l).flatten = l := by
  intro fuel
  induction fuel with
  | zero =>
    intro l hl
    have : l = [] := List.eq_nil_of_length_eq_zero (Nat.le_zero.mp hl)
    subst this
    rfl
  | succ fuel ih =>
    intro l hl
    cases l with
    | nil => rfl
    | cons x xs =>
      have hrec : ((x :: xs).drop n).length ≤ fuel := by
        rw [List.length_drop]
        simp only [List.length_cons] at hl ⊢
        omega
      simp only [chunksFuel, List.flatten_cons, ih _ hrec,
        List.take_append_drop]

theorem chunksFuel_length_le {α : Type} (n : Nat) :
    ∀ (fuel : Nat) (l : List α), ∀ c ∈ chunksFuel n fuel l, c.length ≤ n := by
  intro fuel
  induction fuel with
  | zero =>
    intro l c hc
    cases l <;> simp [chunksFuel] at hc
  | succ fuel ih =>
    intro l c hc
    cases l with
    | nil => simp [chunksFuel] at hc
    | cons x xs =>
      simp only [chunksFuel, List.mem_cons] at hc
      rcases hc with h | h
      · subst h
        simp [List.length_take_le]
      · exact ih _ c h

theorem chunksFuel_full {α : Type} (n : Nat) (hn : 1 ≤ n) :
    ∀ (fuel : Nat) (l : List α), l.length ≤ fuel →
      ∀ i c, i + 1 < (chunksFuel n fuel l).length →
        (chunksFuel n fuel l)[i]? = some c → c.length = n := by
  intro fuel
  induction fuel with
  | zero =>
    intro l hl i c hi
    have : l = [] := List.eq_nil_of_length_eq_zero (Nat.le_zero.mp hl)
    subst this
    simp [chunksFuel] at hi
  | succ fuel ih =>
    intro l hl i c hi hget
    cases l with
    | nil => simp [chunksFuel] at hi
    | cons x xs =>
      have hrec : ((x :: xs).drop n).length ≤ fuel := by
        rw [List.length_drop]
        simp only [List.length_cons] at hl ⊢
        omega
      simp only [chunksFuel, List.length_cons] at hi hget
      cases i with
      | zero =>
        have hne : chunksFuel n fuel ((x :: xs).drop n) ≠ [] := by
          intro h0
          rw [h0] at hi
          simp at hi
        have hdrop : (x :: xs).drop n ≠ [] := by
          intro h0
          rw [h0, chunksFuel_nil] at hne
          exact hne rfl
        have hlen : n < (x :: xs).length := by
          by_contra hle
          push_neg at hle
          exact hdrop (List.drop_eq_nil_of_le hle)
        simp only [List.getElem?_cons_zero, Option.some.injEq] at hget
        subst hget
        rw [List.length_take]
        omega
      | succ j =>
        simp only [List.getElem?_cons_succ] at hget
        exact ih _ hrec j c (by omega) hget

/-- C8: `chunks(batchSize)` with `batchSize ≥ 1` partitions the
collected records — the concatenation of the batches is the input
sequence (every record exactly once, in arrival order), every batch
holds at most `batchSize` records, and every batch but the last holds
exactly `batchSize`. -/
theorem chunksList_partition {α : Type} (n : Nat) (hn : 1 ≤ n) (l : List α) :
    (chunksList n l).flatten = l ∧
    (∀ c ∈ chunksList n l, c.length ≤ n) ∧
    (∀ i c, i + 1 < (chunksList n l).length →
      (chunksList n l)[i]? = some c → c.length = n) :=
  ⟨chunksFuel_flatten n hn l.length l (Nat.le_refl _),
   chunksFuel_length_le n l.length l,
   chunksFuel_full n hn l.length l (Nat.le_refl _)⟩

/-- C8 witness: five records in batches of two. -/
theorem chunksList_partition_witness :
    (chunksList 2 [10, 20, 30, 40, 50]).flatten = [10, 20, 30, 40, 50] ∧
    (∀ c ∈ chunksList 2 [10, 20, 30, 40, 50], c.length ≤ 2) ∧
    (∀ i c, i + 1 < (chunksList 2 [10, 20, 30, 40, 50]).length →
      (chunksList 2 [10, 20, 30, 40, 50])[i]? = some c → c.length = 2) :=
  chunksList_partition 2 (by decide) [10, 20, 30, 40, 50]

/-- Whether a per-batch result is a success. -/
def isOkRes : Except String Unit → Bool
  | Except.ok _ => true
  | Except.error _ => false

/-- The batches the `for_each` loop is run over: the walked entries
that scanned successfully, collected, then chunked. -/
def runBatches (env : ScanEnv) (batch_size : Nat) : List (List FileInfo) :=
  chunksList batch_size ((okEntries env.walk).filterMap scan_file)

/-- The per-batch outcomes, in dispatch order. -/
def runResults (env : ScanEnv) (batch_size : Nat) : List (Except String Unit) :=
  (runBatches env batch_size).map (execBatch env.exec)

/-- The rows left in the table by the loop: the concatenation of
exactly the batches whose transaction committed. -/
def committedRows (exec : FileInfo → Except String Unit)
    (bs : List (List FileInfo)) : List FileInfo :=
  (bs.filter (fun b => isOkRes (execBatch exec b))).flatten

theorem forEachBatches_no_panic (env : ScanEnv)
    (hopen : ∀ i, env.openConn i = Except.ok ())
    (hsend : ∀ i, env.sendOk i = true) :
    ∀ (bs : List (List FileInfo)) (idx : Nat) (table : List FileInfo),
      forEachBatches env idx table bs =
        LoopRes.done (table ++ committedRows env.exec bs)
          (bs.map (execBatch env.exec)) := by
  intro bs
  induction bs with
  | nil =>
    intro idx table
    simp [forEachBatches, committedRows]
  | cons b rest ih =>
    intro idx table
    rw [forEachBatches, hopen idx, hsend idx]
    cases hb : execBatch env.exec b with
    | ok u =>
      cases u
      simp [save_batch_to_db, hb, ih (idx + 1) (table ++ b),
        committedRows, List.filter_cons, isOkRes]
    | error e =>
      simp [save_batch_to_db, hb, ih (idx + 1) table,
        committedRows, List.filter_cons, isOkRes]

theorem drain_ok_iff (rs : List (Except String Unit)) :
    drain rs = Except.ok () ↔ ∀ r ∈ rs, r = Except.ok () := by
  induction rs with
  | nil => simp [drain]
  | cons r rest ih =>
    cases r with
    | ok u =>
      cases u
      simp [drain, ih]
    | error e =>
      simp only [drain]
      constructor
      · intro h
        exact absurd h (by simp)
      · intro hall
        have := hall (Except.error e) (List.mem_cons_self _ _)
        exact absurd this (by simp)

theorem drain_first_error (rs : List (Except String Unit)) :
    ∀ (i : Nat) (e : String), rs[i]? = some (Except.error e) →
      (∀ j, j < i → ∀ r, rs[j]? = some r → r = Except.ok ()) →
      drain rs = Except.error e := by
  induction rs with
  | nil =>
    intro i e hi
    simp at hi
  | cons r rest ih =>
    intro i e hi hprev
    cases i with
    | zero =>
      simp only [List.getElem?_cons_zero, Option.some.injEq] at hi
      subst hi
      rfl
    | succ j =>
      have hr : r = Except.ok () :=
        hprev 0 (Nat.succ_pos j) r List.getElem?_cons_zero
      subst hr
      simp only [List.getElem?_cons_succ] at hi
      rw [drain]
      exact ih j e hi (fun k hk s hs =>
        hprev (k + 1) (Nat.succ_lt_succ hk) s (by simpa using hs))

theorem scan_and_save_def (env : ScanEnv) (db : FilesTable) (n : Nat) :
    scan_and_save env db n =
      if n = 0 then (setup_db db, RunOutcome.panic)
      else
        match forEachBatches env 0 []
            (chunksList n ((okEntries env.walk).filterMap scan_file)) with
        | LoopRes.panicked t => (some t, RunOutcome.panic)
        | LoopRes.done t rs =>
          match drain rs with
          | Except.ok _ => (some t, RunOutcome.ok)
          | Except.error e => (some t, RunOutcome.err e) := rfl

/-- C3: a run that reaches the write stage (no panics injected)
succeeds exactly when every batch write succeeded; when some batch
fails, the run returns the first error in channel order — after every
dispatched batch was attempted — and the table still holds precisely
the rows of every batch that committed (partial persistence, no
cross-batch rollback). -/
theorem scan_and_save_aggregate (env : ScanEnv) (db : FilesTable) (n : Nat)
    (hn : 1 ≤ n)
    (hopen : ∀ i, env.openConn i = Except.ok ())
    (hsend : ∀ i, env.sendOk i = true) :
    ((scan_and_save env db n).2 = RunOutcome.ok ↔
      ∀ r ∈ runResults env n, r = Except.ok ()) ∧
    (∀ (i : Nat) (e : String),
      (runResults env n)[i]? = some (Except.error e) →
      (∀ j : Nat, j < i → ∀ r : Except String Unit,
        (runResults env n)[j]? = some r → r = Except.ok ()) →
      (scan_and_save env db n).2 = RunOutcome.err e) ∧
    (scan_and_save env db n).1 =
      some (committedRows env.exec (runBatches env n)) := by
  have hn0 : ¬ n = 0 := by omega
  have hloop := forEachBatches_no_panic env hopen hsend
    (chunksList n ((okEntries env.walk).filterMap scan_file)) 0 []
  rw [List.nil_append] at hloop
  have key : scan_and_save env db n =
      (match drain (runResults env n) with
        | Except.ok _ =>
          (some (committedRows env.exec (runBatches env n)), RunOutcome.ok)
        | Except.error e =>
          (some (committedRows env.exec (runBatches env n)),
            RunOutcome.err e)) := by
    rw [scan_and_save_def, if_neg hn0, hloop]
    rfl
  refine ⟨?_, ?_, ?_⟩
  · rw [key]
    cases hd : drain (runResults env n) with
    | ok u =>
      cases u
      constructor
      · intro _
        exact (drain_ok_iff _).mp hd
      · intro _
        rfl
    | error e =>
      constructor
      · intro h
        exact absurd h (by simp)
      · intro hall
        have hok := (drain_ok_iff (runResults env n)).mpr hall
        rw [hd] at hok
        exact absurd hok (by simp)
  · intro i e hi hprev
    have hd := drain_first_error (runResults env n) i e hi hprev
    rw [key, hd]
  · rw [key]
    cases hd : drain (runResults env n) <;> simp

/-- An environment whose store rejects the insert of `a.txt` but
accepts every other insert; the walk yields the two files `a.txt` and
`b.txt`. -/
def demoFailEnv : ScanEnv :=
  { walk := [Except.ok entryA, Except.ok entryB]
    exec := fun fi =>
      if fi.file_name = "a.txt" then Except.error "disk full"
      else Except.ok ()
    openConn := fun _ => Except.ok ()
    sendOk := fun _ => true }

/-- C3 witness: two one-record batches, the first one failing — the
run fails with the first error while the second batch's rows stay. -/
theorem scan_and_save_aggregate_witness :
    (scan_and_save demoFailEnv none 1).2 = RunOutcome.err "disk full" ∧
    (scan_and_save demoFailEnv none 1).1 =
      some (committedRows demoFailEnv.exec (runBatches demoFailEnv 1)) := by
  have h := scan_and_save_aggregate demoFailEnv none 1 (by decide)
    (fun i => rfl) (fun i => rfl)
  exact ⟨h.2.1 0 "disk full" rfl
    (fun j hj r hr => absurd hj (Nat.not_lt_zero j)), h.2.2⟩

theorem okEntries_all_error (w : List (Except String Entry))
    (hw : ∀ r ∈ w, ∃ msg, r = Except.error msg) :
    okEntries w = [] := by
  induction w with
  | nil => rfl
  | cons r rest ih =>
    obtain ⟨msg, hmsg⟩ := hw r (List.mem_cons_self r rest)
    subst hmsg
    simp only [okEntries, List.filterMap_cons, Except.toOption]
    exact ih (fun s hs => hw s (List.mem_cons_of_mem _ hs))

/-- C5: when the root does not exist the walker yields only error
results (walkdir's documented tolerance), so the run sees zero
records, writes no batch, and returns success with the snapshot table
created but empty. -/
theorem scan_and_save_missing_root (env : ScanEnv) (db : FilesTable)
    (n : Nat) (hn : 1 ≤ n)
    (hw : ∀ r ∈ env.walk, ∃ msg, r = Except.error msg) :
    scan_and_save env db n = (some [], RunOutcome.ok) := by
  have hn0 : ¬ n = 0 := by omega
  rw [scan_and_save_def, if_neg hn0, okEntries_all_error env.walk hw]
  rfl

/-- The walk of a missing root: a single error entry, no directory
entries. -/
def demoMissingEnv : ScanEnv :=
  { walk := [Except.error "No such file or directory (os error 2)"]
    exec := fun _ => Except.ok ()
    openConn := fun _ => Except.ok ()
    sendOk := fun _ => true }

/-- C5 witness: a run over the missing root with `batch_size = 3`. -/
theorem scan_and_save_missing_root_witness :
    scan_and_save demoMissingEnv none 3 = (some [], RunOutcome.ok) :=
  scan_and_save_missing_root demoMissingEnv none 3 (by decide)
    (fun r hr => by
      simp only [demoMissingEnv, List.mem_singleton] at hr
      exact ⟨"No such file or directory (os error 2)", hr⟩)

theorem chunksList_ne_nil {α : Type} (n : Nat) (l : List α) (hl : l ≠ []) :
    ∃ c cs, chunksList n l = c :: cs := by
  cases l with
  | nil => exact absurd rfl hl
  | cons x xs => exact ⟨_, _, rfl⟩

/-- C10: once the write stage is reached, a failure of the per-batch
`Connection::open` — or of the channel `send` — hits an `unwrap` and
panics; the run never surfaces such a failure as its error value. -/
theorem scan_and_save_unwrap_panics (env : ScanEnv) (db : FilesTable)
    (n : Nat) (hn : 1 ≤ n)
    (hrec : (okEntries env.walk).filterMap scan_file ≠ [])
    (hfail : (∃ msg, env.openConn 0 = Except.error msg) ∨
      (env.openConn 0 = Except.ok () ∧ env.sendOk 0 = false)) :
    (scan_and_save env db n).2 = RunOutcome.panic ∧
    ∀ e, (scan_and_save env db n).2 ≠ RunOutcome.err e := by
  have hn0 : ¬ n = 0 := by omega
  obtain ⟨c, cs, hc⟩ := chunksList_ne_nil n _ hrec
  have hpan : ∃ t, forEachBatches env 0 []
      (chunksList n ((okEntries env.walk).filterMap scan_file)) =
        LoopRes.panicked t := by
    rw [hc]
    rcases hfail with ⟨msg, hmsg⟩ | ⟨hopen0, hsend0⟩
    · exact ⟨[], by rw [forEachBatches, hmsg]⟩
    · obtain ⟨t2, r, hsv⟩ : ∃ t2 r, save_batch_to_db env.exec [] c = (t2, r) :=
        ⟨_, _, rfl⟩
      refine ⟨t2, ?_⟩
      simp only [forEachBatches, hopen0, hsv, hsend0]
      simp
  obtain ⟨t, ht⟩ := hpan
  constructor
  · rw [scan_and_save_def, if_neg hn0, ht]
  · intro e
    rw [scan_and_save_def, if_neg hn0, ht]
    simp

/-- An environment in which every per-batch `Connection::open`
fails. -/
def demoPanicEnv : ScanEnv :=
  { walk := [Except.ok entryA]
    exec := fun _ => Except.ok ()
    openConn := fun _ => Except.error "unable to open database file"
    sendOk := fun _ => true }

/-- C10 witness: one batch whose connection open fails. -/
theorem scan_and_save_unwrap_panics_witness :
    (scan_and_save demoPanicEnv none 1).2 = RunOutcome.panic ∧
    ∀ e, (scan_and_save demoPanicEnv none 1).2 ≠ RunOutcome.err e :=
  scan_and_save_unwrap_panics demoPanicEnv none 1 (by decide) (by decide)
    (Or.inl ⟨"unable to open database file", rfl⟩)

/-- A stale row left over from a previous run. -/
def demoRowStale : FileInfo :=
  { file_name := "old.txt", file_path := "/r", last_access_date := none,
    creation_date := none, update_date := none, full_path := "/r/old.txt" }

/-- C1 (refuted — evidence for the code bug): `batch_size = 0` is NOT
rejected before any store mutation.  The code opens the store, runs
`setup_db` — creating the table when it was absent and clearing any
rows it held — and collects the scan, and only then panics inside
`slice::chunks(0)`; no rejection is returned before the mutation. -/
theorem scan_and_save_zero_batch_size :
    scan_and_save demoEnvOk none 0 = (some [], RunOutcome.panic) ∧
    scan_and_save demoEnvOk (some [demoRowStale]) 0 =
      (some [], RunOutcome.panic) :=
  ⟨rfl, rfl⟩

/-- The number of walked entries that are regular files (readable,
not directories). -/
def regularFileCount (es : List Entry) : Nat :=
  (es.filter (fun e =>
    match e.meta with
    | some m => !m.isDir
    | none => false)).length

/-- C9: `scan_file` never consults the entry kind — a readable
directory entry with a name and a parent yields a record exactly like
a regular file, and flipping `isDir` does not change the result; on
the sample tree (two regular files inside one subdirectory of the
walked root) the pipeline therefore stores 4 records, not 2. -/
theorem scan_file_ignores_entry_kind (pi : PathInfo) (m : Metadata)
    (nm p : String)
    (hn : pi.fileName = some nm) (hp : pi.parentDir = some p) :
    (∃ fi, scan_file { path := pi, meta := some { m with isDir := true } }
      = some fi) ∧
    scan_file { path := pi, meta := some { m with isDir := true } } =
      scan_file { path := pi, meta := some { m with isDir := false } } ∧
    regularFileCount (okEntries demoTreeWalk) = 2 ∧
    ((okEntries demoTreeWalk).filterMap scan_file).length = 4 := by
  have hsome : scan_file { path := pi, meta := some { m with isDir := true } }
      = some { file_name := nm, file_path := p,
               last_access_date := m.accessed.map system_time_to_iso8601,
               creation_date := m.created.map system_time_to_iso8601,
               update_date := m.modified.map system_time_to_iso8601,
               full_path := pi.fullPath } := by
    simp [scan_file, hn, hp]
  refine ⟨⟨_, hsome⟩, ?_, rfl, rfl⟩
  rw [hsome]
  simp [scan_file, hn, hp]

/-- C9 witness: the subdirectory `/r/d` itself yields a record. -/
theorem scan_file_ignores_entry_kind_witness :
    (∃ fi, scan_file { path := entrySubDir.path,
                       meta := some { fileMetaAll with isDir := true } }
      = some fi) ∧
    scan_file { path := entrySubDir.path,
                meta := some { fileMetaAll with isDir := true } } =
      scan_file { path := entrySubDir.path,
                  meta := some { fileMetaAll with isDir := false } } ∧
    regularFileCount (okEntries demoTreeWalk) = 2 ∧
    ((okEntries demoTreeWalk).filterMap scan_file).length = 4 :=
  scan_file_ignores_entry_kind entrySubDir.path fileMetaAll "d" "/r" rfl rfl
